import Mathlib

/-!
Verification of the `gc` commit-message generator (src/index.ts).

Strings are modelled as `List Char`.  The JavaScript notions of
whitespace (`\s`, `String.prototype.trim`), line terminators (the
characters `.` does not match), and digits (`\d`) are embedded
explicitly, so that `parseCommitCandidates`, `escapeQuotes`,
`createProviderFromConfig` and the `execute` pipeline below are
faithful images of the source.
-/

namespace GC

/-- JavaScript `\s` / `trim` whitespace set (WhiteSpace ∪ LineTerminator). -/
def jsSpace (c : Char) : Bool :=
  let n := c.toNat
  n == 0x9 || n == 0xA || n == 0xB || n == 0xC || n == 0xD || n == 0x20 ||
  n == 0xA0 || n == 0x1680 || (decide (0x2000 ≤ n) && decide (n ≤ 0x200A)) ||
  n == 0x2028 || n == 0x2029 || n == 0x202F || n == 0x205F || n == 0x3000 ||
  n == 0xFEFF

/-- JavaScript line terminators: the characters regexp `.` does not match. -/
def lineTerm (c : Char) : Bool :=
  let n := c.toNat
  n == 0xA || n == 0xD || n == 0x2028 || n == 0x2029

/-- JavaScript `\d` (no `u` flag): exactly the ASCII digits. -/
def jsDigit (c : Char) : Bool :=
  c.isDigit

/-- Drop leading JS whitespace. -/
def trimL (l : List Char) : List Char :=
  l.dropWhile jsSpace

/-- Drop trailing JS whitespace. -/
def trimR (l : List Char) : List Char :=
  (l.reverse.dropWhile jsSpace).reverse

/-- JavaScript `String.prototype.trim`. -/
def jsTrim (l : List Char) : List Char :=
  trimR (trimL l)

/-- JavaScript `text.split("\n")` on the character-list model. -/
def splitNl : List Char → List (List Char)
  | [] => [[]]
  | c :: rest =>
    if c = '\n' then [] :: splitNl rest
    else
      match splitNl rest with
      | [] => [[c]]
      | l :: ls => (c :: l) :: ls

/-- Matching of `\s*(.+)$` (with backtracking) against the part of a line
after the leading `\d+\.`: greedily consume whitespace, then capture the
non-empty remainder, which `(.+)` only matches when it contains no line
terminator; when the whole tail is whitespace, backtracking leaves the
last character as the capture. -/
def matchTail (t : List Char) : Option (List Char) :=
  if t.dropWhile jsSpace = [] then
    match t.reverse with
    | [] => none
    | c :: _ => if lineTerm c then none else some [c]
  else
    if (t.dropWhile jsSpace).all (fun ch => !lineTerm ch) then
      some (t.dropWhile jsSpace)
    else none

/-- `line.match(/^\d+\.\s*(.+)$/)`: the capture group, when the line
matches.  The maximal digit run must be non-empty and be followed by a
literal period; the rest is handled by `matchTail`. -/
def matchLine (l : List Char) : Option (List Char) :=
  if (l.takeWhile jsDigit).isEmpty then none
  else
    match l.dropWhile jsDigit with
    | [] => none
    | d :: rest => if d = '.' then matchTail rest else none

/-- One loop iteration of `parseCommitCandidates`: the trimmed capture of
a matching line (the capture of a matching line is never empty, so the
source's truthiness test on `match?.[1]` never filters anything else). -/
def lineCandidate (l : List Char) : Option (List Char) :=
  (matchLine l).map jsTrim

/-- `parseCommitCandidates` from src/index.ts: split on `"\n"`, keep the
trimmed captures of lines matching `/^\d+\.\s*(.+)$/`, in order. -/
def parseCommitCandidates (text : List Char) : List (List Char) :=
  (splitNl text).filterMap lineCandidate

/-- `str.replace(/x/g, repl)` for a single-character pattern and a literal
replacement is a character-wise substitution. -/
def replaceEach (f : Char → List Char) : List Char → List Char
  | [] => []
  | c :: rest => f c ++ replaceEach f rest

/-- First pass of `escapeQuotes`: `.replace(/"/g, '\\"')`. -/
def repQuote (c : Char) : List Char :=
  if c = '"' then ['\\', '"'] else [c]

/-- Second pass of `escapeQuotes`: `.replace(/`/g, "\\`")`. -/
def repBacktick (c : Char) : List Char :=
  if c = '`' then ['\\', '`'] else [c]

/-- `escapeQuotes` from src/index.ts: the two sequential global replaces. -/
def escapeQuotes (str : List Char) : List Char :=
  replaceEach repBacktick (replaceEach repQuote str)

/-- Single-pass escaping as the spec describes it: prefix every `"` and
every backtick with a backslash, leave everything else unchanged. -/
def escChar (c : Char) : List Char :=
  if c = '"' ∨ c = '`' then ['\\', c] else [c]

/-- Spec-side escaping (one pass over the characters). -/
def specEscape (str : List Char) : List Char :=
  replaceEach escChar str

/-- Modelled from the spec: the shell's double-quoted-string unescaping,
which is not part of this repository.  A backslash before `"`, backtick,
`\` or `$` removes the backslash; before any other character the
backslash is kept. -/
def shellUnescape : List Char → List Char
  | [] => []
  | c :: rest =>
    if c = '\\' then
      match rest with
      | [] => ['\\']
      | d :: rest2 =>
        if d = '"' ∨ d = '`' ∨ d = '\\' ∨ d = '$' then d :: shellUnescape rest2
        else '\\' :: d :: shellUnescape rest2
    else c :: shellUnescape rest

/-- Messages in which no backslash is immediately followed by a backslash
or a dollar sign: exactly the messages the narrow escaping round-trips. -/
def rtSafe : List Char → Bool
  | [] => true
  | c :: rest =>
    if c = '\\' then
      match rest with
      | [] => true
      | d :: _ => decide (d ≠ '\\' ∧ d ≠ '$') && rtSafe rest
    else rtSafe rest

/-- The model configuration object consumed from the external
configuration collaborator (`kly`'s `ModelConfig`): the four fields the
source reads. -/
structure ModelConfig where
  provider : List Char
  model : Option (List Char)
  apiKey : Option (List Char)
  baseURL : Option (List Char)
deriving DecidableEq

/-- The resolved model client: provider identity, resolved model name,
and the credentials passed through to the client constructor. -/
structure Provider where
  providerId : List Char
  modelId : List Char
  apiKey : Option (List Char)
  baseURL : Option (List Char)
deriving DecidableEq

/-- JavaScript `m || d` for an optional string: the default is used when
the string is `undefined` or empty (the empty string is falsy). -/
def jsOrString (m : Option (List Char)) (d : List Char) : List Char :=
  match m with
  | none => d
  | some s => if s = [] then d else s

/-- The provider-specific default model name of each `switch` branch. -/
def defaultModelFor (p : List Char) : List Char :=
  if p = "openai".toList then "gpt-4o-mini".toList
  else if p = "anthropic".toList then "claude-3-5-haiku-20241022".toList
  else if p = "google".toList then "gemini-2.0-flash-exp".toList
  else []

/-- `createProviderFromConfig` from src/index.ts: the `switch` over
`config.provider`; the `default` branch throws, modelled as `.error`
carrying the thrown message. -/
def createProviderFromConfig (config : ModelConfig) :
    Except (List Char) Provider :=
  if config.provider = "openai".toList then
    .ok ⟨config.provider, jsOrString config.model "gpt-4o-mini".toList,
         config.apiKey, config.baseURL⟩
  else if config.provider = "anthropic".toList then
    .ok ⟨config.provider,
         jsOrString config.model "claude-3-5-haiku-20241022".toList,
         config.apiKey, config.baseURL⟩
  else if config.provider = "google".toList then
    .ok ⟨config.provider, jsOrString config.model "gemini-2.0-flash-exp".toList,
         config.apiKey, config.baseURL⟩
  else
    .error ("Unsupported provider: ".toList ++ config.provider)

/-- The value `execCommand` resolves to: `success` is false exactly when
the shell command exited non-zero, `output` is the captured stdout
(`error.stdout || ""` on failure). -/
structure ExecResult where
  success : Bool
  output : List Char
  error : Option (List Char)
deriving DecidableEq

/-- Observable external effects of one `execute` run, in order: shell
commands, the config fetch, provider construction, the `generateText`
network call, the two interactive prompts, and the commit shell command
(`execCommand` at the step-7 call site). -/
inductive Event where
  | exec : List Char → Event
  | getConfig : Event
  | createProvider : Event
  | modelCall : Event
  | selectPrompt : Event
  | confirmPrompt : Event
  | commitExec : List Char → Event
deriving DecidableEq

instance {α β : Type} [DecidableEq α] [DecidableEq β] :
    DecidableEq (Except α β) := fun x y =>
  match x, y with
  | .error a, .error b =>
    if h : a = b then .isTrue (congrArg Except.error h)
    else .isFalse (fun hc => h (Except.error.inj hc))
  | .ok a, .ok b =>
    if h : a = b then .isTrue (congrArg Except.ok h)
    else .isFalse (fun hc => h (Except.ok.inj hc))
  | .error _, .ok _ => .isFalse (fun hc => Except.noConfusion hc)
  | .ok _, .error _ => .isFalse (fun hc => Except.noConfusion hc)

/-- Oracle for everything outside the core: results of the three git
reads, the configuration, the model reply (or the error `generateText`
rejects with), the index of the option the operator picks, the
confirmation answer, and the commit command's result. -/
structure Env where
  gitRevParse : ExecResult
  gitDiffStat : ExecResult
  gitDiffFull : ExecResult
  config : Option ModelConfig
  modelResponse : Except (List Char) (List Char)
  selectIndex : Nat
  confirmAnswer : Bool
  commitResult : ExecResult
deriving DecidableEq

/-- The record `execute` returns; fields the source leaves off an object
literal are `none` / `false`. -/
structure ToolResult where
  success : Bool
  message : Option (List Char)
  error : Option (List Char)
  cancelled : Bool
  suggestedMessage : Option (List Char)
deriving DecidableEq

def revParseCmd : List Char := "git rev-parse --is-inside-work-tree".toList

def diffStatCmd : List Char := "git diff --cached --stat".toList

def diffCmd : List Char := "git diff --cached".toList

/-- The step-7 commit command with the escaped message interpolated into
the double-quoted argument. -/
def commitCmdFor (msg : List Char) : List Char :=
  "git commit -m \"".toList ++ escapeQuotes msg ++ ['"']

/-- The sentinel value of the extra "Cancel" option. -/
def cancelSentinel : List Char := "__cancel__".toList

def notRepoMsg : List Char := "Not a git repository".toList

def noStagedMsg : List Char := "No staged changes".toList

def noModelMsg : List Char := "No model configured".toList

def parseErrorMsg : List Char := "Parse error".toList

/-- `generateCommitTool.execute` from src/index.ts over the oracle `Env`,
returning the result record together with the ordered trace of external
effects.  Steps follow the source: repo check, staged summary (the check
reads only the trimmed stdout), full diff, config fetch, provider
construction and model call inside the try/catch, parse, select with the
appended cancel option, confirm, commit. -/
def execute (env : Env) : ToolResult × List Event :=
  if ¬ env.gitRevParse.success then
    (⟨false, none, some notRepoMsg, false, none⟩, [.exec revParseCmd])
  else if jsTrim env.gitDiffStat.output = [] then
    (⟨false, none, some noStagedMsg, false, none⟩,
      [.exec revParseCmd, .exec diffStatCmd])
  else
    match env.config with
    | none =>
      (⟨false, none, some noModelMsg, false, none⟩,
        [.exec revParseCmd, .exec diffStatCmd, .exec diffCmd, .getConfig])
    | some cfg =>
      match createProviderFromConfig cfg with
      | .error msg =>
        (⟨false, none, some msg, false, none⟩,
          [.exec revParseCmd, .exec diffStatCmd, .exec diffCmd, .getConfig,
            .createProvider])
      | .ok _ =>
        match env.modelResponse with
        | .error msg =>
          (⟨false, none, some msg, false, none⟩,
            [.exec revParseCmd, .exec diffStatCmd, .exec diffCmd, .getConfig,
              .createProvider, .modelCall])
        | .ok text =>
          let candidates := parseCommitCandidates text
          if candidates = [] then
            (⟨false, none, some parseErrorMsg, false, none⟩,
              [.exec revParseCmd, .exec diffStatCmd, .exec diffCmd, .getConfig,
                .createProvider, .modelCall])
          else
            let selected := (candidates ++ [cancelSentinel]).getD env.selectIndex []
            if selected = cancelSentinel then
              (⟨false, none, none, true, none⟩,
                [.exec revParseCmd, .exec diffStatCmd, .exec diffCmd, .getConfig,
                  .createProvider, .modelCall, .selectPrompt])
            else if env.confirmAnswer then
              if env.commitResult.success then
                (⟨true, some selected, none, false, none⟩,
                  [.exec revParseCmd, .exec diffStatCmd, .exec diffCmd,
                    .getConfig, .createProvider, .modelCall, .selectPrompt,
                    .confirmPrompt, .commitExec (commitCmdFor selected)])
              else
                (⟨false, none, env.commitResult.error, false, none⟩,
                  [.exec revParseCmd, .exec diffStatCmd, .exec diffCmd,
                    .getConfig, .createProvider, .modelCall, .selectPrompt,
                    .confirmPrompt, .commitExec (commitCmdFor selected)])
            else
              (⟨false, none, none, true, some selected⟩,
                [.exec revParseCmd, .exec diffStatCmd, .exec diffCmd,
                  .getConfig, .createProvider, .modelCall, .selectPrompt,
                  .confirmPrompt])

/-- Message on which the escaping round-trip fails: quote, backtick, and
two consecutive backslashes. -/
def roundTripCexMsg : List Char := "\"`\\\\".toList

/-- A round-trip-safe message exercising all escaped characters. -/
def rtWitnessMsg : List Char := "a\"b`c\\d$e".toList

def cfgOpenAI : ModelConfig := ⟨"openai".toList, none, some "k".toList, none⟩

def cfgAnthropic : ModelConfig :=
  ⟨"anthropic".toList, some "claude-x".toList, some "k".toList, none⟩

/-- Provider config whose model name is present but empty. -/
def cfgEmptyModel : ModelConfig := ⟨"openai".toList, some [], none, none⟩

def okExec : ExecResult := ⟨true, "ok".toList, none⟩

def revParseOk : ExecResult := ⟨true, "true\n".toList, none⟩

def stagedOk : ExecResult := ⟨true, " src/index.ts | 2 +-\n".toList, none⟩

/-- Scenario: staged summary succeeded but is whitespace only. -/
def envNoStaged : Env :=
  ⟨revParseOk, ⟨true, "  \n".toList, none⟩, okExec, some cfgOpenAI,
    .ok "1. feat: a".toList, 0, true, okExec⟩

/-- Scenario: the staged-summary command itself exited non-zero with
empty captured stdout. -/
def envStatFailed : Env :=
  ⟨revParseOk, ⟨false, [], some "fatal: bad revision".toList⟩, okExec,
    some cfgOpenAI, .ok [], 0, true, okExec⟩

/-- Scenario: two candidates, operator picks option index 2 (the
sentinel). -/
def envSelectCancel : Env :=
  ⟨revParseOk, stagedOk, okExec, some cfgOpenAI,
    .ok "1. feat: a\n2. fix: b".toList, 2, true, okExec⟩

/-- Scenario: operator picks candidate 0 and declines the confirmation. -/
def envDecline : Env :=
  ⟨revParseOk, stagedOk, okExec, some cfgOpenAI,
    .ok "1. feat: a\n2. fix: b".toList, 0, false, okExec⟩

/-- Scenario: the first parsed candidate is literally `__cancel__` and the
operator selects it. -/
def envCollide : Env :=
  ⟨revParseOk, stagedOk, okExec, some cfgOpenAI,
    .ok "1. __cancel__\n2. feat: x".toList, 0, true, okExec⟩

theorem dropWhile_idem (p : Char → Bool) (l : List Char) :
    (l.dropWhile p).dropWhile p = l.dropWhile p := by
  induction l with
  | nil => rfl
  | cons a l ih =>
    by_cases h : p a = true
    · rw [List.dropWhile_cons_of_pos h]; exact ih
    · rw [List.dropWhile_cons_of_neg h, List.dropWhile_cons_of_neg h]

theorem trimR_decomp (z : List Char) :
    z = trimR z ++ (z.reverse.takeWhile jsSpace).reverse := by
  calc z = z.reverse.reverse := (List.reverse_reverse z).symm
  _ = (z.reverse.takeWhile jsSpace ++ z.reverse.dropWhile jsSpace).reverse := by
      rw [List.takeWhile_append_dropWhile]
  _ = (z.reverse.dropWhile jsSpace).reverse ++
        (z.reverse.takeWhile jsSpace).reverse := by
      rw [List.reverse_append]
  _ = trimR z ++ (z.reverse.takeWhile jsSpace).reverse := rfl

theorem trimL_of_trimR (z : List Char) (hz : trimL z = z) :
    trimL (trimR z) = trimR z := by
  rcases htr : trimR z with _ | ⟨a, t⟩
  · rfl
  · have hdecomp := trimR_decomp z
    rw [htr] at hdecomp
    have hpa : ¬ jsSpace a = true := by
      intro hpa
      unfold trimL at hz
      rw [hdecomp, List.cons_append, List.dropWhile_cons_of_pos hpa] at hz
      have hlen := (List.dropWhile_sublist (l := t ++ (z.reverse.takeWhile jsSpace).reverse) jsSpace).length_le
      rw [hz] at hlen
      simp at hlen
    unfold trimL
    rw [List.dropWhile_cons_of_neg hpa]

theorem trimR_idem (z : List Char) : trimR (trimR z) = trimR z := by
  unfold trimR
  rw [List.reverse_reverse, dropWhile_idem]

theorem trimL_idem (l : List Char) : trimL (trimL l) = trimL l :=
  dropWhile_idem jsSpace l

theorem jsTrim_idem (l : List Char) : jsTrim (jsTrim l) = jsTrim l := by
  unfold jsTrim
  rw [trimL_of_trimR (trimL l) (trimL_idem l), trimR_idem]

theorem jsTrim_all_space (l : List Char) (h : ∀ x ∈ l, jsSpace x = true) :
    jsTrim l = [] := by
  unfold jsTrim trimL
  rw [List.dropWhile_eq_nil_iff.mpr h]
  rfl

theorem jsTrim_trimL (c : List Char) : jsTrim (trimL c) = jsTrim c := by
  unfold jsTrim
  rw [trimL_idem]

theorem matchTail_sound (t cap : List Char) (h : matchTail t = some cap) :
    ∃ w c, t = w ++ c ∧ (∀ x ∈ w, jsSpace x = true) ∧ c ≠ [] ∧
      (∀ x ∈ c, lineTerm x = false) ∧ jsTrim cap = jsTrim c := by
  unfold matchTail at h
  by_cases hr : t.dropWhile jsSpace = []
  · rw [if_pos hr] at h
    rcases hrev : t.reverse with _ | ⟨a, rest⟩
    · rw [hrev] at h; cases h
    · rw [hrev] at h
      have h2 : (if lineTerm a = true then none else some [a]) = some cap := h
      by_cases hlt : lineTerm a = true
      · rw [if_pos hlt] at h2; cases h2
      · rw [if_neg hlt] at h2
        have hcap : cap = [a] := by cases h2; rfl
        have ht : t = rest.reverse ++ [a] := by
          have h1 : t = (a :: rest).reverse := by
            rw [← hrev, List.reverse_reverse]
          simpa using h1
        refine ⟨rest.reverse, [a], ht, ?_, by simp, ?_, by rw [hcap]⟩
        · intro x hx
          have hxt : x ∈ t := by
            rw [ht]
            exact List.mem_append_left _ hx
          exact (List.dropWhile_eq_nil_iff.mp hr) x hxt
        · intro x hx
          simp only [List.mem_singleton] at hx
          subst hx
          simpa using hlt
  · rw [if_neg hr] at h
    by_cases hall : (t.dropWhile jsSpace).all (fun ch => !lineTerm ch) = true
    · rw [if_pos hall] at h
      have hcap : cap = t.dropWhile jsSpace := by cases h; rfl
      refine ⟨t.takeWhile jsSpace, t.dropWhile jsSpace,
        (List.takeWhile_append_dropWhile jsSpace t).symm,
        fun x hx => List.mem_takeWhile_imp hx, hr, ?_, ?_⟩
      · intro x hx
        have := List.all_eq_true.mp hall x hx
        simpa using this
      · rw [hcap]
    · rw [if_neg hall] at h; cases h

theorem matchTail_complete (w c : List Char)
    (hw : ∀ x ∈ w, jsSpace x = true) (hc : c ≠ [])
    (hct : ∀ x ∈ c, lineTerm x = false) :
    ∃ cap, matchTail (w ++ c) = some cap ∧ jsTrim cap = jsTrim c := by
  have hdrop : (w ++ c).dropWhile jsSpace = c.dropWhile jsSpace :=
    List.dropWhile_append_of_pos hw
  by_cases hr : c.dropWhile jsSpace = []
  · have hcall : ∀ x ∈ c, jsSpace x = true := List.dropWhile_eq_nil_iff.mp hr
    rcases hcrev : c.reverse with _ | ⟨a, crest⟩
    · exact absurd (List.reverse_eq_nil_iff.mp hcrev) hc
    · have haMem : a ∈ c := by
        rw [← List.mem_reverse, hcrev]
        simp
      have halt : lineTerm a = false := hct a haMem
      have hasp : jsSpace a = true := hcall a haMem
      refine ⟨[a], ?_, ?_⟩
      · unfold matchTail
        rw [if_pos (by rw [hdrop]; exact hr)]
        have hrev : (w ++ c).reverse = a :: (crest ++ w.reverse) := by
          rw [List.reverse_append, hcrev]
          simp
        rw [hrev]
        simp [halt]
      · rw [jsTrim_all_space [a] (by
          intro x hx
          simp only [List.mem_singleton] at hx
          subst hx
          exact hasp),
          jsTrim_all_space c hcall]
  · refine ⟨c.dropWhile jsSpace, ?_, ?_⟩
    · unfold matchTail
      rw [hdrop, if_neg hr, if_pos ?_]
      rw [List.all_eq_true]
      intro x hx
      have hxc : x ∈ c := (List.dropWhile_sublist jsSpace).subset hx
      simp [hct x hxc]
    · exact jsTrim_trimL c

theorem lineCandidate_iff (l cand : List Char) :
    lineCandidate l = some cand ↔
      ∃ ds w c, l = ds ++ '.' :: (w ++ c) ∧ ds ≠ [] ∧
        (∀ x ∈ ds, jsDigit x = true) ∧ (∀ x ∈ w, jsSpace x = true) ∧
        c ≠ [] ∧ (∀ x ∈ c, lineTerm x = false) ∧ cand = jsTrim c := by
  constructor
  · intro h
    unfold lineCandidate at h
    rcases hml : matchLine l with _ | cap
    · rw [hml] at h; cases h
    · rw [hml] at h
      have hcand : cand = jsTrim cap := by
        simp only [Option.map_some'] at h
        exact (Option.some.inj h).symm
      unfold matchLine at hml
      by_cases hemp : (l.takeWhile jsDigit).isEmpty = true
      · rw [if_pos hemp] at hml; cases hml
      · rw [if_neg hemp] at hml
        rcases hdw : l.dropWhile jsDigit with _ | ⟨d, rest⟩
        · rw [hdw] at hml; cases hml
        · rw [hdw] at hml
          have hml2 : (if d = '.' then matchTail rest else none) = some cap := hml
          by_cases hd : d = '.'
          · rw [if_pos hd] at hml2
            subst hd
            obtain ⟨w, c, hrest, hw, hc, hct, htr⟩ :=
              matchTail_sound rest cap hml2
            refine ⟨l.takeWhile jsDigit, w, c, ?_, ?_, ?_, hw, hc, hct, ?_⟩
            · rw [← hrest, ← hdw, List.takeWhile_append_dropWhile]
            · intro hnil
              rw [hnil] at hemp
              exact hemp rfl
            · intro x hx
              exact List.mem_takeWhile_imp hx
            · rw [hcand, htr]
          · rw [if_neg hd] at hml2; cases hml2
  · rintro ⟨ds, w, c, hl, hds, hdsall, hw, hc, hct, hcand⟩
    have hdot : jsDigit '.' = false := by decide
    have htake : l.takeWhile jsDigit = ds := by
      rw [hl, List.takeWhile_append_of_pos hdsall,
        List.takeWhile_cons_of_neg (by simp [hdot])]
      simp
    have hdrop : l.dropWhile jsDigit = '.' :: (w ++ c) := by
      rw [hl, List.dropWhile_append_of_pos hdsall,
        List.dropWhile_cons_of_neg (by simp [hdot])]
    obtain ⟨cap, hmt, htr⟩ := matchTail_complete w c hw hc hct
    unfold lineCandidate matchLine
    rw [htake, hdrop]
    rw [if_neg (by simpa [List.isEmpty_iff] using hds)]
    show Option.map jsTrim
        (if ('.' : Char) = '.' then matchTail (w ++ c) else none) = some cand
    rw [if_pos rfl, hmt]
    simp only [Option.map_some']
    rw [htr, hcand]


theorem replaceEach_append (f : Char → List Char) (a b : List Char) :
    replaceEach f (a ++ b) = replaceEach f a ++ replaceEach f b := by
  induction a with
  | nil => rfl
  | cons c rest ih => simp [replaceEach, ih]

theorem escape_char_eq (c : Char) :
    replaceEach repBacktick (repQuote c) = escChar c := by
  by_cases hq : c = '"'
  · subst hq; rfl
  · by_cases hb : c = '`'
    · subst hb; rfl
    · simp [repQuote, repBacktick, escChar, replaceEach, hq, hb]

theorem escape_eq (l : List Char) : escapeQuotes l = specEscape l := by
  induction l with
  | nil => rfl
  | cons c rest ih =>
    show replaceEach repBacktick (repQuote c ++ replaceEach repQuote rest) =
      escChar c ++ replaceEach escChar rest
    rw [replaceEach_append, escape_char_eq]
    exact congrArg _ ih

theorem unescape_quote_cons (y : List Char) :
    shellUnescape ('\\' :: '"' :: y) = '"' :: shellUnescape y := rfl

theorem unescape_backtick_cons (y : List Char) :
    shellUnescape ('\\' :: '`' :: y) = '`' :: shellUnescape y := rfl

theorem unescape_bslash_cons (y : List Char) :
    shellUnescape ('\\' :: '\\' :: y) = '\\' :: shellUnescape y := rfl

theorem unescape_plain_cons (c : Char) (y : List Char) (hbs : c ≠ '\\') :
    shellUnescape (c :: y) = c :: shellUnescape y := by
  rw [shellUnescape.eq_def]
  simp [hbs]

theorem unescape_bslash_plain_cons (d : Char) (y : List Char)
    (h1 : d ≠ '"') (h2 : d ≠ '`') (h3 : d ≠ '\\') (h4 : d ≠ '$') :
    shellUnescape ('\\' :: d :: y) = '\\' :: d :: shellUnescape y := by
  rw [shellUnescape.eq_def]
  simp [h1, h2, h3, h4]

theorem escChar_plain (c : Char) (h1 : c ≠ '"') (h2 : c ≠ '`') :
    escChar c = [c] := by
  simp [escChar, h1, h2]

theorem unescape_specEscape (msg : List Char) (h : rtSafe msg = true) :
    shellUnescape (specEscape msg) = msg := by
  induction msg with
  | nil => rfl
  | cons c rest ih =>
    by_cases hbs : c = '\\'
    · subst hbs
      rcases rest with _ | ⟨d, tail⟩
      · rfl
      · have hsafe : (d ≠ '\\' ∧ d ≠ '$') ∧ rtSafe (d :: tail) = true := by
          have h' : (decide (d ≠ '\\' ∧ d ≠ '$') && rtSafe (d :: tail)) = true := h
          simpa [Bool.and_eq_true, decide_eq_true_iff] using h'
        have ihd := ih hsafe.2
        have hd1 : d ≠ '\\' := hsafe.1.1
        have hd2 : d ≠ '$' := hsafe.1.2
        by_cases hqq : d = '"'
        · subst hqq
          show shellUnescape ('\\' :: '\\' :: '"' :: specEscape tail) =
            '\\' :: '"' :: tail
          rw [unescape_bslash_cons, unescape_plain_cons '"' _ (by decide)]
          have ihd2 : shellUnescape ('\\' :: '"' :: specEscape tail) =
              '"' :: tail := ihd
          rw [unescape_quote_cons] at ihd2
          injection ihd2 with h1 h2
          rw [h2]
        · by_cases hbt : d = '`'
          · subst hbt
            show shellUnescape ('\\' :: '\\' :: '`' :: specEscape tail) =
              '\\' :: '`' :: tail
            rw [unescape_bslash_cons, unescape_plain_cons '`' _ (by decide)]
            have ihd2 : shellUnescape ('\\' :: '`' :: specEscape tail) =
                '`' :: tail := ihd
            rw [unescape_backtick_cons] at ihd2
            injection ihd2 with h1 h2
            rw [h2]
          · show shellUnescape ('\\' :: (escChar d ++ specEscape tail)) =
              '\\' :: d :: tail
            rw [escChar_plain d hqq hbt, List.singleton_append,
              unescape_bslash_plain_cons d _ hqq hbt hd1 hd2]
            have ihd2 : shellUnescape (d :: specEscape tail) = d :: tail := by
              have hde : specEscape (d :: tail) = d :: specEscape tail := by
                show escChar d ++ specEscape tail = d :: specEscape tail
                rw [escChar_plain d hqq hbt, List.singleton_append]
              rw [← hde]
              exact ihd
            rw [unescape_plain_cons d _ hd1] at ihd2
            injection ihd2 with h1 h2
            rw [h2]
    · have hsafe : rtSafe rest = true := by
        have h' : rtSafe (c :: rest) = true := h
        simpa [rtSafe, hbs] using h'
      have ihr := ih hsafe
      by_cases hqq : c = '"'
      · subst hqq
        show shellUnescape ('\\' :: '"' :: specEscape rest) = '"' :: rest
        rw [unescape_quote_cons, ihr]
      · by_cases hbt : c = '`'
        · subst hbt
          show shellUnescape ('\\' :: '`' :: specEscape rest) = '`' :: rest
          rw [unescape_backtick_cons, ihr]
        · show shellUnescape (escChar c ++ specEscape rest) = c :: rest
          rw [escChar_plain c hqq hbt, List.singleton_append,
            unescape_plain_cons c _ hbs, ihr]

/-- C1: `parseCommitCandidates` splits its input on newline characters
and returns, in order, exactly the trimmed captured content of each line
matching the numbered-line pattern (a non-empty run of digits, a period,
optional whitespace, then non-empty content), discarding every other
line; on `"1. feat(x): a\n2. fix(y): b\n"` it returns
`["feat(x): a", "fix(y): b"]`. -/
theorem parseCommitCandidates_spec :
    (∀ text, parseCommitCandidates text = (splitNl text).filterMap lineCandidate) ∧
    (∀ l cand, lineCandidate l = some cand ↔
      ∃ ds w c, l = ds ++ '.' :: (w ++ c) ∧ ds ≠ [] ∧
        (∀ x ∈ ds, jsDigit x = true) ∧ (∀ x ∈ w, jsSpace x = true) ∧
        c ≠ [] ∧ (∀ x ∈ c, lineTerm x = false) ∧ cand = jsTrim c) ∧
    parseCommitCandidates ("1. feat(x): a\n2. fix(y): b\n".toList) =
      ["feat(x): a".toList, "fix(y): b".toList] :=
  ⟨fun _ => rfl, lineCandidate_iff, by decide⟩

/-- Witness for C1 at the concrete line `"12.  feat: x "`. -/
theorem parseCommitCandidates_spec_witness :
    ∃ ds w c, "12.  feat: x ".toList = ds ++ '.' :: (w ++ c) ∧ ds ≠ [] ∧
      (∀ x ∈ ds, jsDigit x = true) ∧ (∀ x ∈ w, jsSpace x = true) ∧ c ≠ [] ∧
      (∀ x ∈ c, lineTerm x = false) ∧ "feat: x".toList = jsTrim c :=
  (parseCommitCandidates_spec.2.1 ("12.  feat: x ".toList)
    ("feat: x".toList)).mp (by decide)

/-- C2 counterexample: on `"1. "` (digits, period, single space) the
parser returns a list containing the empty string, so not every returned
candidate is non-empty. -/
theorem parse_empty_candidate_cex :
    parseCommitCandidates ("1. ".toList) = [[]] ∧
    ([] : List Char) ∈ parseCommitCandidates ("1. ".toList) := by
  decide

/-- C2 (amended): every string returned by `parseCommitCandidates` equals
its own trim (no leading or trailing whitespace); it is not always
non-empty — a numbered line whose content is only whitespace yields the
empty string. -/
theorem parse_candidates_trimmed :
    ∀ text s, s ∈ parseCommitCandidates text → jsTrim s = s := by
  intro text s hs
  unfold parseCommitCandidates at hs
  obtain ⟨l, _, hl⟩ := List.mem_filterMap.mp hs
  unfold lineCandidate at hl
  rcases hml : matchLine l with _ | cap
  · rw [hml] at hl; cases hl
  · rw [hml] at hl
    simp only [Option.map_some'] at hl
    have hseq : s = jsTrim cap := (Option.some.inj hl).symm
    rw [hseq]
    exact jsTrim_idem cap

/-- Witness for C2 at the concrete text `"1. a"`. -/
theorem parse_candidates_trimmed_witness :
    "a".toList ∈ parseCommitCandidates ("1. a".toList) ∧
    jsTrim ("a".toList) = "a".toList :=
  ⟨by decide, parse_candidates_trimmed ("1. a".toList) ("a".toList) (by decide)⟩

/-- C3: `escapeQuotes` (the two sequential global replaces of the source)
is exactly the single pass that prefixes every double quote and every
backtick with a backslash and leaves every other character unchanged. -/
theorem escapeQuotes_spec : ∀ str, escapeQuotes str = specEscape str :=
  escape_eq

/-- C4 counterexample: the message `"`\\` contains a double quote and a
backtick, yet escaping it and then applying the shell's double-quoted
unescaping loses one backslash, so the round-trip is not the identity on
every message containing those characters. -/
theorem escape_roundtrip_cex :
    ('"' ∈ roundTripCexMsg ∧ '`' ∈ roundTripCexMsg) ∧
    shellUnescape (escapeQuotes roundTripCexMsg) ≠ roundTripCexMsg := by
  decide

/-- C4 (amended): the round-trip through `escapeQuotes` and the shell's
double-quoted unescaping reproduces the message verbatim exactly for
messages in which no backslash is immediately followed by a backslash or
a dollar sign (`rtSafe`); messages containing `\\` or `\$` lose the
backslash. -/
theorem escape_roundtrip_safe :
    ∀ msg, rtSafe msg = true → shellUnescape (escapeQuotes msg) = msg := by
  intro msg h
  rw [escape_eq]
  exact unescape_specEscape msg h

/-- Witness for C4 at the concrete message `a"b`c\d$e`. -/
theorem escape_roundtrip_safe_witness :
    rtSafe rtWitnessMsg = true ∧
    shellUnescape (escapeQuotes rtWitnessMsg) = rtWitnessMsg :=
  ⟨by decide, escape_roundtrip_safe rtWitnessMsg (by decide)⟩

theorem getD_append_length {α : Type} (l : List α) (x : α) (d : α) :
    (l ++ [x]).getD l.length d = x := by
  rw [List.getD_append_right _ _ _ _ (Nat.le_refl _)]
  simp

theorem jsOrString_eq_ite (m : Option (List Char)) (d : List Char) :
    jsOrString m d = if m = none ∨ m = some [] then d else m.getD [] := by
  rcases m with _ | s
  · simp [jsOrString]
  · by_cases hs : s = []
    · subst hs; simp [jsOrString]
    · simp [jsOrString, hs]

theorem create_openai (config : ModelConfig)
    (h : config.provider = "openai".toList) :
    createProviderFromConfig config =
      .ok ⟨config.provider, jsOrString config.model "gpt-4o-mini".toList,
        config.apiKey, config.baseURL⟩ := by
  unfold createProviderFromConfig
  rw [if_pos h]

theorem create_anthropic (config : ModelConfig)
    (h : config.provider = "anthropic".toList) :
    createProviderFromConfig config =
      .ok ⟨config.provider,
        jsOrString config.model "claude-3-5-haiku-20241022".toList,
        config.apiKey, config.baseURL⟩ := by
  have h0 : config.provider ≠ "openai".toList := by rw [h]; decide
  unfold createProviderFromConfig
  rw [if_neg h0, if_pos h]

theorem create_google (config : ModelConfig)
    (h : config.provider = "google".toList) :
    createProviderFromConfig config =
      .ok ⟨config.provider, jsOrString config.model "gemini-2.0-flash-exp".toList,
        config.apiKey, config.baseURL⟩ := by
  have h0 : config.provider ≠ "openai".toList := by rw [h]; decide
  have h1 : config.provider ≠ "anthropic".toList := by rw [h]; decide
  unfold createProviderFromConfig
  rw [if_neg h0, if_neg h1, if_pos h]

theorem create_unknown (config : ModelConfig)
    (h0 : config.provider ≠ "openai".toList)
    (h1 : config.provider ≠ "anthropic".toList)
    (h2 : config.provider ≠ "google".toList) :
    createProviderFromConfig config =
      .error ("Unsupported provider: ".toList ++ config.provider) := by
  unfold createProviderFromConfig
  rw [if_neg h0, if_neg h1, if_neg h2]

/-- C5: with the repository check passed, an empty (after trimming)
staged summary makes `execute` return the "No staged changes" failure
with neither provider construction nor a model call in the trace; and
whenever a model call is in the trace, every precondition (repository
present, staged summary non-empty, model configured) held. -/
theorem fail_fast_no_staged :
    ∀ env : Env,
      (env.gitRevParse.success = true → jsTrim env.gitDiffStat.output = [] →
        (execute env).1 = ⟨false, none, some noStagedMsg, false, none⟩ ∧
        Event.createProvider ∉ (execute env).2 ∧
        Event.modelCall ∉ (execute env).2) ∧
      (Event.modelCall ∈ (execute env).2 →
        env.gitRevParse.success = true ∧ jsTrim env.gitDiffStat.output ≠ [] ∧
        env.config ≠ none) := by
  intro env
  constructor
  · intro h1 h2
    refine ⟨?_, ?_, ?_⟩ <;> simp [execute, h1, h2]
  · intro hm
    by_cases h1 : env.gitRevParse.success = true
    · by_cases h2 : jsTrim env.gitDiffStat.output = []
      · simp [execute, h1, h2] at hm
      · rcases hc : env.config with _ | cfg
        · simp [execute, h1, h2, hc] at hm
        · exact ⟨h1, h2, by simp [hc]⟩
    · have h1' : env.gitRevParse.success = false := by
        revert h1; cases env.gitRevParse.success <;> simp
      simp [execute, h1'] at hm

/-- Witness for C5: a concrete environment with a whitespace-only staged
summary. -/
theorem fail_fast_no_staged_witness :
    (execute envNoStaged).1 = ⟨false, none, some noStagedMsg, false, none⟩ ∧
    Event.modelCall ∉ (execute envNoStaged).2 :=
  ⟨((fail_fast_no_staged envNoStaged).1 (by decide) (by decide)).1,
   ((fail_fast_no_staged envNoStaged).1 (by decide) (by decide)).2.2⟩

/-- C6 counterexample: a staged-summary command that exited non-zero
(with empty captured stdout) still yields the "No staged changes"
outcome, so that outcome is not distinct from a command failure. -/
theorem no_staged_on_failed_command_cex :
    envStatFailed.gitDiffStat.success = false ∧
    (execute envStatFailed).1 = ⟨false, none, some noStagedMsg, false, none⟩ := by
  decide

/-- C6 (amended): an empty (after trimming) staged summary is classified
as "nothing staged", but the command's exit status is never consulted:
the outcome depends only on the captured stdout, so a failing command
whose stdout is empty also yields "No staged changes". -/
theorem no_staged_ignores_exit_status :
    ∀ (env : Env) (b : Bool) (e : Option (List Char)),
      (env.gitRevParse.success = true → jsTrim env.gitDiffStat.output = [] →
        (execute env).1 = ⟨false, none, some noStagedMsg, false, none⟩) ∧
      execute (Env.mk env.gitRevParse ⟨b, env.gitDiffStat.output, e⟩
          env.gitDiffFull env.config env.modelResponse env.selectIndex
          env.confirmAnswer env.commitResult) = execute env := by
  intro env b e
  constructor
  · intro h1 h2
    simp [execute, h1, h2]
  · rfl

/-- Witness for C6: the no-staged outcome at a concrete environment, and
exit-status independence at the same environment. -/
theorem no_staged_ignores_exit_status_witness :
    (execute envNoStaged).1 = ⟨false, none, some noStagedMsg, false, none⟩ ∧
    execute (Env.mk envNoStaged.gitRevParse
        ⟨false, envNoStaged.gitDiffStat.output, some "boom".toList⟩
        envNoStaged.gitDiffFull envNoStaged.config envNoStaged.modelResponse
        envNoStaged.selectIndex envNoStaged.confirmAnswer
        envNoStaged.commitResult) = execute envNoStaged :=
  ⟨(no_staged_ignores_exit_status envNoStaged false (some "boom".toList)).1
      (by decide) (by decide),
   (no_staged_ignores_exit_status envNoStaged false (some "boom".toList)).2⟩

/-- C7 counterexample: with provider `openai` and `model` present but
equal to the empty string, the resolved model name is the default
`gpt-4o-mini`, so the fallback does not happen exactly when `model` is
absent — it also happens when `model` is the (falsy) empty string. -/
theorem default_model_on_empty_cex :
    cfgEmptyModel.model ≠ none ∧
    createProviderFromConfig cfgEmptyModel =
      .ok ⟨"openai".toList, "gpt-4o-mini".toList, none, none⟩ := by
  decide

/-- C7 (amended): `createProviderFromConfig` fails with the
unsupported-provider error iff the provider is outside
{openai, anthropic, google}; on success the client carries the config's
apiKey and baseURL, and the model name falls back to the
provider-specific default exactly when `config.model` is absent or the
empty string. -/
theorem createProviderFromConfig_spec :
    ∀ config : ModelConfig,
      ((∃ p, createProviderFromConfig config = .ok p) ↔
        (config.provider = "openai".toList ∨
          config.provider = "anthropic".toList ∨
          config.provider = "google".toList)) ∧
      ((config.provider ≠ "openai".toList ∧
          config.provider ≠ "anthropic".toList ∧
          config.provider ≠ "google".toList) →
        createProviderFromConfig config =
          .error ("Unsupported provider: ".toList ++ config.provider)) ∧
      (∀ p, createProviderFromConfig config = .ok p →
        p.providerId = config.provider ∧ p.apiKey = config.apiKey ∧
        p.baseURL = config.baseURL ∧
        p.modelId = (if config.model = none ∨ config.model = some []
          then defaultModelFor config.provider
          else config.model.getD [])) := by
  intro config
  by_cases h1 : config.provider = "openai".toList
  · refine ⟨⟨fun _ => Or.inl h1, fun _ => ⟨_, create_openai config h1⟩⟩,
      fun hne => absurd h1 hne.1, ?_⟩
    intro p hp
    rw [create_openai config h1] at hp
    cases Except.ok.inj hp
    refine ⟨rfl, rfl, rfl, ?_⟩
    show jsOrString config.model "gpt-4o-mini".toList = _
    rw [jsOrString_eq_ite]
    simp [defaultModelFor, h1]
  · by_cases h2 : config.provider = "anthropic".toList
    · refine ⟨⟨fun _ => Or.inr (Or.inl h2),
        fun _ => ⟨_, create_anthropic config h2⟩⟩,
        fun hne => absurd h2 hne.2.1, ?_⟩
      intro p hp
      rw [create_anthropic config h2] at hp
      cases Except.ok.inj hp
      refine ⟨rfl, rfl, rfl, ?_⟩
      show jsOrString config.model "claude-3-5-haiku-20241022".toList = _
      rw [jsOrString_eq_ite]
      simp [defaultModelFor, h1, h2]
    · by_cases h3 : config.provider = "google".toList
      · refine ⟨⟨fun _ => Or.inr (Or.inr h3),
          fun _ => ⟨_, create_google config h3⟩⟩,
          fun hne => absurd h3 hne.2.2, ?_⟩
        intro p hp
        rw [create_google config h3] at hp
        cases Except.ok.inj hp
        refine ⟨rfl, rfl, rfl, ?_⟩
        show jsOrString config.model "gemini-2.0-flash-exp".toList = _
        rw [jsOrString_eq_ite]
        simp [defaultModelFor, h1, h2, h3]
      · refine ⟨⟨?_, fun hor =>
          hor.elim (fun h => absurd h h1)
            (fun hor2 => hor2.elim (fun h => absurd h h2)
              (fun h => absurd h h3))⟩,
          fun _ => create_unknown config h1 h2 h3, ?_⟩
        · rintro ⟨p, hp⟩
          rw [create_unknown config h1 h2 h3] at hp
          cases hp
        · intro p hp
          rw [create_unknown config h1 h2 h3] at hp
          cases hp

/-- Witness for C7: a supported provider resolves, an unsupported one
fails with the unsupported-provider error. -/
theorem createProviderFromConfig_spec_witness :
    (∃ p, createProviderFromConfig cfgAnthropic = .ok p) ∧
    createProviderFromConfig (ModelConfig.mk "azure".toList none none none) =
      .error ("Unsupported provider: ".toList ++ "azure".toList) :=
  ⟨(createProviderFromConfig_spec cfgAnthropic).1.mpr (Or.inr (Or.inl rfl)),
   (createProviderFromConfig_spec
      (ModelConfig.mk "azure".toList none none none)).2.1
      ⟨by decide, by decide, by decide⟩⟩

/-- C8: when the pipeline reaches selection and the operator picks the
appended cancel sentinel (option index = number of candidates), `execute`
returns `{success := false, cancelled := true}`, no confirmation prompt
is shown and no commit command is invoked. -/
theorem cancel_sentinel_flow :
    ∀ (env : Env) (cfg : ModelConfig) (text : List Char),
      env.gitRevParse.success = true →
      jsTrim env.gitDiffStat.output ≠ [] →
      env.config = some cfg →
      (∃ p, createProviderFromConfig cfg = .ok p) →
      env.modelResponse = .ok text →
      parseCommitCandidates text ≠ [] →
      env.selectIndex = (parseCommitCandidates text).length →
      (execute env).1 = ⟨false, none, none, true, none⟩ ∧
      Event.confirmPrompt ∉ (execute env).2 ∧
      (∀ cmd, Event.commitExec cmd ∉ (execute env).2) := by
  intro env cfg text h1 h2 hc hex hm hne hidx
  obtain ⟨p, hp⟩ := hex
  have hsel : (parseCommitCandidates text ++ [cancelSentinel]).getD
      env.selectIndex [] = cancelSentinel := by
    rw [hidx]
    exact getD_append_length _ _ _
  rw [List.getD_eq_getElem?_getD] at hsel
  refine ⟨?_, ?_, ?_⟩ <;> simp [execute, h1, h2, hc, hp, hm, hne, hsel]

/-- Witness for C8 at a concrete environment with two candidates and the
sentinel selected. -/
theorem cancel_sentinel_flow_witness :
    (execute envSelectCancel).1 = ⟨false, none, none, true, none⟩ ∧
    Event.confirmPrompt ∉ (execute envSelectCancel).2 :=
  ⟨(cancel_sentinel_flow envSelectCancel cfgOpenAI
      ("1. feat: a\n2. fix: b".toList) (by decide) (by decide) rfl
      ⟨⟨"openai".toList, "gpt-4o-mini".toList, some "k".toList, none⟩,
        by decide⟩ rfl (by decide) (by decide)).1,
   (cancel_sentinel_flow envSelectCancel cfgOpenAI
      ("1. feat: a\n2. fix: b".toList) (by decide) (by decide) rfl
      ⟨⟨"openai".toList, "gpt-4o-mini".toList, some "k".toList, none⟩,
        by decide⟩ rfl (by decide) (by decide)).2.1⟩

/-- C9: when the operator picks a real candidate (not equal to the
sentinel value) and answers the confirmation negatively, no commit
command is invoked and the result is the non-error outcome
`{success := false, cancelled := true, suggestedMessage := the chosen
message}`. -/
theorem declined_confirmation_flow :
    ∀ (env : Env) (cfg : ModelConfig) (text : List Char),
      env.gitRevParse.success = true →
      jsTrim env.gitDiffStat.output ≠ [] →
      env.config = some cfg →
      (∃ p, createProviderFromConfig cfg = .ok p) →
      env.modelResponse = .ok text →
      env.selectIndex < (parseCommitCandidates text).length →
      (parseCommitCandidates text).getD env.selectIndex [] ≠ cancelSentinel →
      env.confirmAnswer = false →
      (execute env).1 = ⟨false, none, none, true,
        some ((parseCommitCandidates text).getD env.selectIndex [])⟩ ∧
      (execute env).1.error = none ∧
      (∀ cmd, Event.commitExec cmd ∉ (execute env).2) := by
  intro env cfg text h1 h2 hc hex hm hidx hsentinel hconf
  obtain ⟨p, hp⟩ := hex
  have hne : parseCommitCandidates text ≠ [] := by
    intro hnil
    rw [hnil] at hidx
    simp at hidx
  have hsel : (parseCommitCandidates text ++ [cancelSentinel]).getD
      env.selectIndex [] = (parseCommitCandidates text).getD env.selectIndex [] :=
    List.getD_append _ _ _ _ hidx
  rw [List.getD_eq_getElem?_getD, List.getD_eq_getElem?_getD] at hsel
  rw [List.getD_eq_getElem?_getD] at hsentinel
  refine ⟨?_, ?_, ?_⟩ <;>
    simp [execute, h1, h2, hc, hp, hm, hne, hsel, hsentinel, hconf]

/-- Witness for C9 at a concrete environment where candidate 0 is chosen
and the confirmation declined. -/
theorem declined_confirmation_flow_witness :
    (execute envDecline).1 = ⟨false, none, none, true,
      some ((parseCommitCandidates ("1. feat: a\n2. fix: b".toList)).getD 0 [])⟩ ∧
    (∀ cmd, Event.commitExec cmd ∉ (execute envDecline).2) :=
  ⟨(declined_confirmation_flow envDecline cfgOpenAI
      ("1. feat: a\n2. fix: b".toList) (by decide) (by decide) rfl
      ⟨⟨"openai".toList, "gpt-4o-mini".toList, some "k".toList, none⟩,
        by decide⟩ rfl (by decide) (by decide) rfl).1,
   (declined_confirmation_flow envDecline cfgOpenAI
      ("1. feat: a\n2. fix: b".toList) (by decide) (by decide) rfl
      ⟨⟨"openai".toList, "gpt-4o-mini".toList, some "k".toList, none⟩,
        by decide⟩ rfl (by decide) (by decide) rfl).2.2⟩

/-- C10: if a parsed candidate is literally `__cancel__` and the operator
selects that candidate (an index strictly below the number of
candidates), the flow still treats it as cancellation: it returns
`{success := false, cancelled := true}`, never asks for confirmation and
never commits. -/
theorem cancel_collision_flow :
    ∀ (env : Env) (cfg : ModelConfig) (text : List Char),
      env.gitRevParse.success = true →
      jsTrim env.gitDiffStat.output ≠ [] →
      env.config = some cfg →
      (∃ p, createProviderFromConfig cfg = .ok p) →
      env.modelResponse = .ok text →
      env.selectIndex < (parseCommitCandidates text).length →
      (parseCommitCandidates text).getD env.selectIndex [] = cancelSentinel →
      (execute env).1 = ⟨false, none, none, true, none⟩ ∧
      Event.confirmPrompt ∉ (execute env).2 ∧
      (∀ cmd, Event.commitExec cmd ∉ (execute env).2) := by
  intro env cfg text h1 h2 hc hex hm hidx hcoll
  obtain ⟨p, hp⟩ := hex
  have hne : parseCommitCandidates text ≠ [] := by
    intro hnil
    rw [hnil] at hidx
    simp at hidx
  have hsel : (parseCommitCandidates text ++ [cancelSentinel]).getD
      env.selectIndex [] = cancelSentinel := by
    rw [List.getD_append _ _ _ _ hidx]
    exact hcoll
  rw [List.getD_eq_getElem?_getD] at hsel
  refine ⟨?_, ?_, ?_⟩ <;> simp [execute, h1, h2, hc, hp, hm, hne, hsel]

/-- Witness for C10 at a concrete environment whose first candidate is
`__cancel__` and is selected. -/
theorem cancel_collision_flow_witness :
    (execute envCollide).1 = ⟨false, none, none, true, none⟩ ∧
    Event.confirmPrompt ∉ (execute envCollide).2 :=
  ⟨(cancel_collision_flow envCollide cfgOpenAI
      ("1. __cancel__\n2. feat: x".toList) (by decide) (by decide) rfl
      ⟨⟨"openai".toList, "gpt-4o-mini".toList, some "k".toList, none⟩,
        by decide⟩ rfl (by decide) (by decide)).1,
   (cancel_collision_flow envCollide cfgOpenAI
      ("1. __cancel__\n2. feat: x".toList) (by decide) (by decide) rfl
      ⟨⟨"openai".toList, "gpt-4o-mini".toList, some "k".toList, none⟩,
        by decide⟩ rfl (by decide) (by decide)).2.1⟩

end GC
